import Mathlib

/-!
# Verification of the ot-agent database telemetry agent

Shallow embedding of the agent's core routines (MySQL / PostgreSQL collectors,
configuration validation, pipeline dispatch, error queue) together with proofs
of the specification's claims about them.

Python strings are modelled as Lean `String`, Python `int` as `Int`/`Nat`,
Python `float` arithmetic is idealised over `ℚ`, and fallible code returns
`Option`/`Except`.
-/

set_option maxHeartbeats 1000000
set_option maxRecDepth 100000

namespace OtAgent

/-! ## Python string primitives used by the collectors -/

/-- The line-boundary characters recognised by Python `str.splitlines`. -/
def isLineBoundary (c : Char) : Bool :=
  c = '\n' || c = '\r' || c = '\x0b' || c = '\x0c' ||
  c = '\x1c' || c = '\x1d' || c = '\x1e' || c = '\u0085' ||
  c = '\u2028' || c = '\u2029'

/-- Worker for `str.splitlines`: `acc` holds the (reversed) current line.
A boundary terminates the current line; `"\r\n"` counts as one boundary; the
line still open at the end of the string is emitted only if it is non-empty
(so a trailing boundary does not open an empty last line). -/
def pySplitLinesAux : List Char → List Char → List (List Char)
  | [], acc => if acc.isEmpty then [] else [acc.reverse]
  | '\r' :: '\n' :: cs, acc => acc.reverse :: pySplitLinesAux cs []
  | c :: cs, acc =>
    if isLineBoundary c then acc.reverse :: pySplitLinesAux cs []
    else pySplitLinesAux cs (c :: acc)

/-- Python `str.splitlines` on a character list. -/
def pySplitLinesList (cs : List Char) : List (List Char) :=
  pySplitLinesAux cs []

/-- Python `str.splitlines`. -/
def pySplitLines (s : String) : List String :=
  (pySplitLinesList s.data).map String.mk

/-- Python `"\n".join(lines)`. -/
def pyJoinNL : List String → String
  | [] => ""
  | [x] => x
  | x :: xs => x ++ "\n" ++ pyJoinNL xs

/-- `"\n".join` on character lists. -/
def joinNLList : List (List Char) → List Char
  | [] => []
  | [x] => x
  | x :: xs => x ++ '\n' :: joinNLList xs

theorem pyJoinNL_data (L : List String) : (pyJoinNL L).data = joinNLList (L.map String.data) := by
  induction L with
  | nil => rfl
  | cons x xs ih =>
    cases xs with
    | nil => rfl
    | cons y ys =>
      simp only [pyJoinNL, joinNLList, List.map_cons, String.data_append] at ih ⊢
      simp [ih]

/-- Every line produced by `pySplitLinesAux` is free of line boundaries,
provided the accumulator is. -/
theorem pySplitLinesAux_clean (cs acc : List Char) :
    (∀ c ∈ acc, isLineBoundary c = false) →
    ∀ l ∈ pySplitLinesAux cs acc, ∀ c ∈ l, isLineBoundary c = false := by
  induction cs, acc using pySplitLinesAux.induct with
  | case1 acc h =>
    intro hacc l hl
    rw [pySplitLinesAux.eq_1, if_pos h] at hl
    simp at hl
  | case2 acc h =>
    intro hacc l hl
    rw [pySplitLinesAux.eq_1, if_neg h] at hl
    simp only [List.mem_singleton] at hl
    subst hl
    intro c hc
    exact hacc c (List.mem_reverse.mp hc)
  | case3 cs acc ih =>
    intro hacc l hl
    rw [pySplitLinesAux.eq_2] at hl
    rcases List.mem_cons.mp hl with h | h
    · subst h; intro c hc; exact hacc c (List.mem_reverse.mp hc)
    · exact ih (by simp) l h
  | case4 c cs acc hpat hb ih =>
    intro hacc l hl
    rw [pySplitLinesAux.eq_3 _ _ _ hpat, if_pos hb] at hl
    rcases List.mem_cons.mp hl with h | h
    · subst h; intro d hd; exact hacc d (List.mem_reverse.mp hd)
    · exact ih (by simp) l h
  | case5 c cs acc hpat hb ih =>
    intro hacc l hl
    rw [pySplitLinesAux.eq_3 _ _ _ hpat, if_neg hb] at hl
    refine ih ?_ l hl
    intro d hd
    rcases List.mem_cons.mp hd with h | h
    · subst h; simpa using hb
    · exact hacc d h

/-- Scanning a clean (boundary-free) chunk just accumulates it. -/
theorem pySplitLinesAux_append_clean (l : List Char)
    (hl : ∀ c ∈ l, isLineBoundary c = false) (cs acc : List Char) :
    pySplitLinesAux (l ++ cs) acc = pySplitLinesAux cs (l.reverse ++ acc) := by
  induction l generalizing acc with
  | nil => simp
  | cons d l ih =>
    have hd : isLineBoundary d = false := hl d (by simp)
    have hdr : d ≠ '\r' := by
      intro h; subst h; simp [isLineBoundary] at hd
    rw [List.cons_append,
      pySplitLinesAux.eq_3 acc d (l ++ cs) (fun _ hc _ => hdr hc),
      if_neg (by simp [hd]),
      ih (fun c hc => hl c (List.mem_cons_of_mem _ hc))]
    simp

/-- `splitlines` is a left inverse of `"\n".join` for a non-empty list of
clean lines whose last line is non-empty. -/
theorem pySplitLinesList_joinNL (L : List (List Char))
    (hclean : ∀ l ∈ L, ∀ c ∈ l, isLineBoundary c = false)
    (hne : L ≠ []) (hlast : L.getLast hne ≠ []) :
    pySplitLinesList (joinNLList L) = L := by
  induction L with
  | nil => exact absurd rfl hne
  | cons x xs ih =>
    cases xs with
    | nil =>
      have hx : ∀ c ∈ x, isLineBoundary c = false := hclean x (by simp)
      have hxne : x ≠ [] := by simpa [List.getLast] using hlast
      show pySplitLinesAux (joinNLList [x]) [] = [x]
      have : joinNLList [x] = x ++ [] := by simp [joinNLList]
      rw [this, pySplitLinesAux_append_clean x hx [] [], pySplitLinesAux.eq_1]
      rw [if_neg (by simp [List.isEmpty_iff, hxne])]
      simp
    | cons y ys =>
      have hx : ∀ c ∈ x, isLineBoundary c = false := hclean x (by simp)
      show pySplitLinesAux (joinNLList (x :: y :: ys)) [] = x :: y :: ys
      have hjoin : joinNLList (x :: y :: ys) = x ++ '\n' :: joinNLList (y :: ys) := by
        simp [joinNLList]
      rw [hjoin, pySplitLinesAux_append_clean x hx _ [],
        pySplitLinesAux.eq_3 _ '\n' _ (fun _ hc _ => by simp at hc),
        if_pos (by decide)]
      simp only [List.append_nil, List.reverse_reverse]
      congr 1
      have hxs : (y :: ys : List (List Char)) ≠ [] := by simp
      have := ih (fun l hl => hclean l (List.mem_cons_of_mem _ hl)) hxs
        (by simpa [List.getLast] using hlast)
      simpa [pySplitLinesList] using this

theorem digitChar_clean (d : Nat) (hd : d < 10) : isLineBoundary (Nat.digitChar d) = false := by
  interval_cases d <;> decide

theorem toDigitsCore_clean (fuel : Nat) : ∀ (n : Nat) (acc : List Char),
    (∀ c ∈ acc, isLineBoundary c = false) →
    ∀ c ∈ Nat.toDigitsCore 10 fuel n acc, isLineBoundary c = false := by
  induction fuel with
  | zero =>
    intro n acc hacc c hc
    simpa [Nat.toDigitsCore] using hacc c (by simpa [Nat.toDigitsCore] using hc)
  | succ fuel ih =>
    intro n acc hacc c hc
    have hstep : ∀ d ∈ (Nat.digitChar (n % 10) :: acc), isLineBoundary d = false := by
      intro d hd
      rcases List.mem_cons.mp hd with h | h
      · subst h; exact digitChar_clean _ (Nat.mod_lt _ (by norm_num))
      · exact hacc d h
    simp only [Nat.toDigitsCore] at hc
    split at hc
    · exact hstep c hc
    · exact ih _ _ hstep c hc

theorem natToString_clean (n : Nat) : ∀ c ∈ (toString n).data, isLineBoundary c = false := by
  intro c hc
  have hdata : (toString n).data = Nat.toDigits 10 n := rfl
  rw [hdata] at hc
  exact toDigitsCore_clean _ _ _ (by simp) c hc

/-- Last element survives `List.drop` when fewer than `length` elements are dropped. -/
theorem getLast?_drop_of_lt {α : Type} (L : List α) (k : Nat) (h : k < L.length) :
    (L.drop k).getLast? = L.getLast? := by
  induction L generalizing k with
  | nil => simp at h
  | cons x xs ih =>
    cases k with
    | zero => simp
    | succ k =>
      have hk : k < xs.length := by simpa using h
      rw [List.drop_succ_cons, ih k hk]
      cases xs with
      | nil => simp at hk
      | cons y ys => simp [List.getLast?_cons_cons]

/-! ## MySQL collector: `_truncate_innodb_status`
(`driver/collector/mysql_collector.py`, lines 662-677) -/

/-- The ellipsis line `f"...ignore {size-150} lines here..."`. -/
def ellipsisLine (size : Nat) : String :=
  "...ignore " ++ toString (size - 150) ++ " lines here..."

/-- `MysqlCollector._truncate_innodb_status`: keep the first 50 and last 100
lines when the status has more than 150 lines, inserting one ellipsis line. -/
def truncate_innodb_status (status : String) : String :=
  let lines := pySplitLines status
  let size := lines.length
  if size ≤ 150 then status
  else
    let new_lines := lines.take 50
    let new_lines := new_lines ++ [ellipsisLine size]
    let new_lines := new_lines ++ lines.drop (size - 100)
    pyJoinNL new_lines

theorem ellipsisLine_clean (size : Nat) :
    ∀ c ∈ (ellipsisLine size).data, isLineBoundary c = false := by
  intro c hc
  simp only [ellipsisLine, String.data_append] at hc
  rcases List.mem_append.mp hc with h | h
  · rcases List.mem_append.mp h with h | h
    · fin_cases h <;> decide
    · exact natToString_clean _ c h
  · fin_cases h <;> decide

theorem pySplitLines_clean (s : String) :
    ∀ l ∈ pySplitLines s, ∀ c ∈ l.data, isLineBoundary c = false := by
  intro l hl c hc
  simp only [pySplitLines, List.mem_map] at hl
  obtain ⟨cs, hcs, rfl⟩ := hl
  exact pySplitLinesAux_clean s.data [] (by simp) cs hcs c hc

theorem truncate_innodb_status_eq (s : String) :
    truncate_innodb_status s =
      if (pySplitLines s).length ≤ 150 then s
      else pyJoinNL ((pySplitLines s).take 50 ++ [ellipsisLine (pySplitLines s).length] ++
        (pySplitLines s).drop ((pySplitLines s).length - 100)) := rfl

theorem getLast?_map {α β : Type} (f : α → β) (l : List α) :
    (l.map f).getLast? = l.getLast?.map f := by
  induction l with
  | nil => rfl
  | cons x xs ih =>
    cases xs with
    | nil => rfl
    | cons y ys => simpa [List.getLast?_cons_cons] using ih

/-- **C7** (corrected). `MysqlCollector._truncate_innodb_status` is the identity on
statuses with at most 150 lines.  Otherwise it returns the `"\n"`-join of the first
50 lines of the status, one ellipsis line reporting the elided count, and the last
100 lines; whenever the last line of the status is non-empty that output has exactly
151 lines (when the last kept line is empty, the join collapses it and the output
has only 150 lines — see the counterexample). -/
theorem C7_truncate_innodb_status (s : String) :
    ((pySplitLines s).length ≤ 150 → truncate_innodb_status s = s) ∧
    (150 < (pySplitLines s).length →
      truncate_innodb_status s =
        pyJoinNL ((pySplitLines s).take 50 ++ [ellipsisLine (pySplitLines s).length] ++
          (pySplitLines s).drop ((pySplitLines s).length - 100))) ∧
    (150 < (pySplitLines s).length → (pySplitLines s).getLast? ≠ some "" →
      pySplitLines (truncate_innodb_status s) =
        (pySplitLines s).take 50 ++ [ellipsisLine (pySplitLines s).length] ++
          (pySplitLines s).drop ((pySplitLines s).length - 100) ∧
      (pySplitLines (truncate_innodb_status s)).length = 151) := by
  refine ⟨fun h => ?_, fun h => ?_, fun h hlast => ?_⟩
  · rw [truncate_innodb_status_eq, if_pos h]
  · rw [truncate_innodb_status_eq, if_neg (by omega)]
  · rw [truncate_innodb_status_eq, if_neg (by omega)]
    set L := pySplitLines s with hLdef
    set C : List String := L.take 50 ++ [ellipsisLine L.length] ++ L.drop (L.length - 100)
      with hCdef
    have hCclean : ∀ l ∈ C.map String.data, ∀ c ∈ l, isLineBoundary c = false := by
      intro l hl c hc
      simp only [List.mem_map] at hl
      obtain ⟨str, hstr, rfl⟩ := hl
      rcases List.mem_append.mp hstr with h' | h'
      · rcases List.mem_append.mp h' with h' | h'
        · exact pySplitLines_clean s str (List.mem_of_mem_take h') c hc
        · simp only [List.mem_singleton] at h'
          subst h'
          exact ellipsisLine_clean _ c hc
      · exact pySplitLines_clean s str (List.mem_of_mem_drop h') c hc
    have hCne : C ≠ [] := by
      simp [hCdef]
    have hCmapne : C.map String.data ≠ [] := by
      simp [hCne]
    have hLne : L ≠ [] := by
      intro hh
      rw [hh] at h
      simp at h
    have hdropne : L.drop (L.length - 100) ≠ [] := by
      have : (L.drop (L.length - 100)).length = 100 := by
        rw [List.length_drop]
        omega
      intro hh
      rw [hh] at this
      simp at this
    obtain ⟨v, hv⟩ := Option.isSome_iff_exists.mp (List.getLast?_isSome.mpr hLne)
    have hClast : C.getLast? = some v := by
      rw [hCdef, List.getLast?_append,
        getLast?_drop_of_lt L (L.length - 100) (by omega), hv]
      rfl
    have hlast' : (C.map String.data).getLast hCmapne ≠ [] := by
      intro hh
      have h1 : (C.map String.data).getLast? = some [] := by
        rw [List.getLast?_eq_getLast _ hCmapne, hh]
      rw [getLast?_map, hClast] at h1
      simp only [Option.map_some', Option.some.injEq] at h1
      apply hlast
      rw [hv]
      have : v = "" := by
        cases v with
        | mk d => exact congrArg String.mk (by simpa using h1)
      rw [this]
    have hsplit : pySplitLines (pyJoinNL C) = C := by
      unfold pySplitLines
      rw [pyJoinNL_data, pySplitLinesList_joinNL (C.map String.data) hCclean hCmapne hlast']
      rw [List.map_map]
      have : String.mk ∘ String.data = id := by
        funext str
        cases str with
        | mk d => rfl
      rw [this, List.map_id]
    refine ⟨hsplit, ?_⟩
    rw [hsplit, hCdef]
    simp only [List.length_append, List.length_take, List.length_drop,
      List.length_singleton]
    omega

/-- Concrete 151-line innodb status (`"x\n"` repeated 151 times). -/
def innodbStatusDemo : String := ⟨(List.replicate 151 ['x', '\n']).flatten⟩

theorem C7_truncate_innodb_status_witness :
    (pySplitLines (truncate_innodb_status innodbStatusDemo)).length = 151 :=
  ((C7_truncate_innodb_status innodbStatusDemo).2.2 (by decide) (by decide)).2

/-- Concrete 152-line innodb status whose last line is empty. -/
def innodbStatusDemoTrailing : String := ⟨(List.replicate 151 ['x', '\n']).flatten ++ ['\n']⟩

/-- **C7 counterexample**: on a status of 152 lines whose last line is empty
(i.e. the text ends in two newlines), the truncated output has 150 lines —
the `"\n"`-join collapses the trailing empty line — not the 151 lines the
claim states. -/
theorem C7_truncate_counterexample :
    150 < (pySplitLines innodbStatusDemoTrailing).length ∧
    (pySplitLines (truncate_innodb_status innodbStatusDemoTrailing)).length = 150 :=
  ⟨by decide, by decide⟩

/-! ## Error queue and heartbeat (`driver/agent_health_heartbeat.py`) -/

/-- A Python exception value: its class name (`error.__class__.__name__`) and
rendered message (`str(error)`). -/
structure PyExn where
  name : String
  message : String
deriving DecidableEq

/-- One entry of the global error queue: the `(error, timestamp, stacktrace)`
triple enqueued by `add_error_to_global`. -/
structure ErrorQueueEntry where
  error : PyExn
  timestamp : Nat
  stacktrace : Option String
deriving DecidableEq

/-- `add_error_to_global`: `error_queue_global.put((error, utcnow(), stacktrace))`. -/
def add_error_to_global (q : List ErrorQueueEntry) (error : PyExn) (now : Nat)
    (stacktrace : Option String) : List ErrorQueueEntry :=
  q ++ [⟨error, now, stacktrace⟩]

/-- The `{"data": {"name", "message", "stacktrace"}}` part of a drained record. -/
structure ErrorRecordData where
  name : String
  message : String
  stacktrace : Option String
deriving DecidableEq

/-- A drained record: `{"data": {...}, "timestamp": ...}`. -/
structure ErrorRecord where
  data : ErrorRecordData
  timestamp : Nat
deriving DecidableEq

/-- The record built for one queue entry inside the drain loop. -/
def toErrorRecord (e : ErrorQueueEntry) : ErrorRecord :=
  { data := { name := e.error.name, message := e.error.message,
              stacktrace := e.stacktrace },
    timestamp := e.timestamp }

/-- The `while not error_queue.empty(): error_queue.get(); errors.append(...)`
loop of `construct_error_list_and_clear`, under sequential semantics. -/
def drainLoop : List ErrorQueueEntry → List ErrorRecord →
    List ErrorRecord × List ErrorQueueEntry
  | [], errors => (errors, [])
  | entry :: rest, errors => drainLoop rest (errors ++ [toErrorRecord entry])

/-- `construct_error_list_and_clear`: run the drain loop, then
`error_queue.queue.clear()`; returns the record list and the final queue state. -/
def construct_error_list_and_clear (q : List ErrorQueueEntry) :
    List ErrorRecord × List ErrorQueueEntry :=
  let res := drainLoop q []
  (res.1, [])

theorem drainLoop_spec (q : List ErrorQueueEntry) (acc : List ErrorRecord) :
    drainLoop q acc = (acc ++ q.map toErrorRecord, []) := by
  induction q generalizing acc with
  | nil => simp [drainLoop]
  | cons e rest ih => simp [drainLoop, ih]

/-- **C8** (confirmed). `construct_error_list_and_clear` returns one record per
queued `(exception, timestamp, stacktrace)` entry, in FIFO order, each shaped
`{data: {name, message, stacktrace}, timestamp}`, and leaves the queue empty. -/
theorem C8_construct_error_list_and_clear (q : List ErrorQueueEntry) :
    construct_error_list_and_clear q =
      (q.map (fun e => { data := { name := e.error.name, message := e.error.message,
                                   stacktrace := e.stacktrace },
                         timestamp := e.timestamp }), ([] : List ErrorQueueEntry)) := by
  unfold construct_error_list_and_clear
  rw [drainLoop_spec]
  rfl

/-! ## Pipeline dispatch (`driver/pipeline.py`) -/

def DB_LEVEL_MONITOR_JOB_ID : String := "db_level_monitor_job"
def TABLE_LEVEL_MONITOR_JOB_ID : String := "table_level_monitor_job"
def LONG_RUNNING_QUERY_MONITOR_JOB_ID : String := "long_running_query_monitor_job"
def QUERY_MONITOR_JOB_ID : String := "query_monitor_job"
def SCHEMA_MONITOR_JOB_ID : String := "schema_monitor_job"

/-- The five job ids `driver_pipeline` recognises. -/
def pipelineJobIds : List String :=
  [DB_LEVEL_MONITOR_JOB_ID, TABLE_LEVEL_MONITOR_JOB_ID,
   LONG_RUNNING_QUERY_MONITOR_JOB_ID, QUERY_MONITOR_JOB_ID, SCHEMA_MONITOR_JOB_ID]

/-- The body of `driver_pipeline`'s `try` block: dispatch on the job id to one of
the five collect-and-ship helpers (abstracted as `runJob`, which returns
`.error e` when the helper raises exception `e`), raising `DriverException`
for an unknown job id. -/
def dispatchPipelineJob (jobId : String) (runJob : String → Except PyExn Unit) :
    Except PyExn Unit :=
  if jobId = DB_LEVEL_MONITOR_JOB_ID then runJob jobId
  else if jobId = TABLE_LEVEL_MONITOR_JOB_ID then runJob jobId
  else if jobId = LONG_RUNNING_QUERY_MONITOR_JOB_ID then runJob jobId
  else if jobId = QUERY_MONITOR_JOB_ID then runJob jobId
  else if jobId = SCHEMA_MONITOR_JOB_ID then runJob jobId
  else .error { name := "DriverException", message := "Unknown job id " ++ jobId }

/-- `driver_pipeline`: the `try/except` wrapper around the dispatch. Both
`except` branches (`requests.RequestException` and `Exception`) log and call
`add_error_to_global(e, traceback.format_exc())`; no exception escapes, so the
embedding returns the resulting error-queue state (total function). -/
def driver_pipeline (jobId : String) (runJob : String → Except PyExn Unit)
    (q : List ErrorQueueEntry) (now : Nat) (stacktrace : String) :
    List ErrorQueueEntry :=
  match dispatchPipelineJob jobId runJob with
  | .ok _ => q
  | .error e => add_error_to_global q e now (some stacktrace)

/-- **C9** (confirmed). `driver_pipeline` never propagates an exception (its
embedding is a total function into queue states): when the dispatched work
succeeds the queue is unchanged; when it raises `e`, exactly the one record
`(e, timestamp, stacktrace)` is appended; an unknown job id appends exactly one
`DriverException` record. -/
theorem C9_driver_pipeline_catches_all (jobId : String)
    (runJob : String → Except PyExn Unit) (q : List ErrorQueueEntry)
    (now : Nat) (st : String) :
    (jobId ∈ pipelineJobIds → runJob jobId = .ok () →
      driver_pipeline jobId runJob q now st = q) ∧
    (∀ e, jobId ∈ pipelineJobIds → runJob jobId = .error e →
      driver_pipeline jobId runJob q now st = q ++ [⟨e, now, some st⟩]) ∧
    (jobId ∉ pipelineJobIds →
      driver_pipeline jobId runJob q now st =
        q ++ [⟨⟨"DriverException", "Unknown job id " ++ jobId⟩, now, some st⟩]) := by
  unfold driver_pipeline dispatchPipelineJob
  refine ⟨fun hmem hok => ?_, fun e hmem herr => ?_, fun hmem => ?_⟩
  · split_ifs <;> simp_all [pipelineJobIds]
  · split_ifs <;> simp_all [pipelineJobIds, add_error_to_global]
  · split_ifs <;> simp_all [pipelineJobIds, add_error_to_global]

theorem C9_driver_pipeline_catches_all_witness :
    driver_pipeline "bogus_job" (fun _ => .ok ()) [] 0 "tb" =
      [⟨⟨"DriverException", "Unknown job id bogus_job"⟩, 0, some "tb"⟩] :=
  (C9_driver_pipeline_catches_all "bogus_job" (fun _ => .ok ()) [] 0 "tb").2.2
    (by decide)

/-! ## Python substring test (`sub in s`) -/

def listIsPre {α : Type} [DecidableEq α] : List α → List α → Bool
  | [], _ => true
  | _ :: _, [] => false
  | a :: as, b :: bs => a = b && listIsPre as bs

def listContainsSub {α : Type} [DecidableEq α] (sub : List α) : List α → Bool
  | [] => listIsPre sub []
  | a :: rest => listIsPre sub (a :: rest) || listContainsSub sub rest

/-- Python `sub in s` (contiguous substring test). -/
def strContains (s sub : String) : Bool := listContainsSub sub.data s.data

theorem listIsPre_append {α : Type} [DecidableEq α] (sub l l' : List α)
    (h : listIsPre sub l = true) : listIsPre sub (l ++ l') = true := by
  induction sub generalizing l with
  | nil => rfl
  | cons a as ih =>
    cases l with
    | nil => simp [listIsPre] at h
    | cons b bs =>
      simp only [listIsPre, Bool.and_eq_true, decide_eq_true_eq] at h ⊢
      exact ⟨h.1, ih bs (by simp [h.2])⟩

theorem listContainsSub_append_left {α : Type} [DecidableEq α] (sub l l' : List α)
    (h : listContainsSub sub l = true) : listContainsSub sub (l ++ l') = true := by
  induction l with
  | nil =>
    cases sub with
    | nil => cases l' <;> simp [listContainsSub, listIsPre]
    | cons a as => simp [listContainsSub, listIsPre] at h
  | cons b bs ih =>
    simp only [listContainsSub, Bool.or_eq_true] at h ⊢
    rcases h with h | h
    · exact Or.inl (listIsPre_append sub _ l' h)
    · exact Or.inr (ih h)

theorem strContains_append_left (s t sub : String)
    (h : strContains s sub = true) : strContains (s ++ t) sub = true := by
  unfold strContains at h ⊢
  rw [String.data_append]
  exact listContainsSub_append_left _ _ _ h

/-! ## Config builder, file layer (`driver/driver_config_builder.py`) -/

/-- The fields of the pydantic model `PartialConfigFromFile` (all interval and
count fields are `StrictInt`; `server_url` and `metric_source` are typed but
have no range validators). -/
structure PartialConfigFromFile where
  server_url : String
  monitor_interval : Int
  num_table_to_collect_stats : Int
  table_level_monitor_interval : Int
  num_index_to_collect_stats : Int
  long_running_query_monitor_interval : Int
  lr_query_latency_threshold_min : Int
  query_monitor_interval : Int
  num_query_to_collect : Int
  metric_source : List String
  schema_monitor_interval : Int
  agent_health_report_interval : Int
deriving DecidableEq

/-- `@validator("table_level_monitor_interval")`: fails with its message when
`val < 300`. `none` means the validator passes. -/
def check_table_level_monitor_interval (val : Int) : Option String :=
  if val < 300 then
    some ("Invalid driver option table_level_monitor_interval, value >= 300" ++
      " is expected, but " ++ toString val ++ " is found")
  else none

/-- `@validator("monitor_interval")`: fails when `val < 60`. -/
def check_monitor_interval (val : Int) : Option String :=
  if val < 60 then
    some ("Invalid driver option monitor_interval, positive value" ++
      " is expected, but " ++ toString val ++ " is found")
  else none

/-- `@validator("long_running_query_monitor_interval")`: fails when `val < 60`. -/
def check_long_running_query_monitor_interval (val : Int) : Option String :=
  if val < 60 then
    some ("Invalid driver option long_running_query_monitor_interval, positive value >= 60" ++
      " is expected, but " ++ toString val ++ " is found")
  else none

/-- `@validator("lr_query_latency_threshold_min")`: fails when `val < 1`. -/
def check_lr_query_latency_threshold_min (val : Int) : Option String :=
  if val < 1 then
    some ("Invalid driver option lr_query_latency_threshold_min, positive value >= 1" ++
      " is expected, but " ++ toString val ++ " is found")
  else none

/-- `@validator("num_table_to_collect_stats")`: fails when `val < 0`. -/
def check_num_table_to_collect_stats (val : Int) : Option String :=
  if val < 0 then
    some ("Invalid driver option num_table_to_collect_stats, non-negative value" ++
      " is expected, but " ++ toString val ++ " is found")
  else none

/-- `@validator("num_index_to_collect_stats")`: fails when `val < 0`. -/
def check_num_index_to_collect_stats (val : Int) : Option String :=
  if val < 0 then
    some ("Invalid driver option num_index_to_collect_stats, non-negative value" ++
      " is expected, but " ++ toString val ++ " is found")
  else none

/-- `@validator("query_monitor_interval")`: fails when `val < 300`. -/
def check_query_monitor_interval (val : Int) : Option String :=
  if val < 300 then
    some ("Invalid driver option query_monitor_interval, value >= 300" ++
      " is expected, but " ++ toString val ++ " is found")
  else none

/-- `@validator("num_query_to_collect")`: fails when `val < 0`. -/
def check_num_query_to_collect (val : Int) : Option String :=
  if val < 0 then
    some ("Invalid driver option num_query_to_collect, non-negative value" ++
      " is expected, but " ++ toString val ++ " is found")
  else none

/-- `@validator("schema_monitor_interval")`: fails when `val < 300`. -/
def check_schema_monitor_interval (val : Int) : Option String :=
  if val < 300 then
    some ("Invalid driver option schema_monitor_interval, value >= 300" ++
      " is expected, but " ++ toString val ++ " is found")
  else none

/-- All validator failures of `PartialConfigFromFile`, in declaration order
(pydantic collects every per-field error into one `ValidationError`).
Note that `agent_health_report_interval` has no validator in the source. -/
def fileValidationErrors (c : PartialConfigFromFile) : List String :=
  [check_table_level_monitor_interval c.table_level_monitor_interval,
   check_monitor_interval c.monitor_interval,
   check_long_running_query_monitor_interval c.long_running_query_monitor_interval,
   check_lr_query_latency_threshold_min c.lr_query_latency_threshold_min,
   check_num_table_to_collect_stats c.num_table_to_collect_stats,
   check_num_index_to_collect_stats c.num_index_to_collect_stats,
   check_query_monitor_interval c.query_monitor_interval,
   check_num_query_to_collect c.num_query_to_collect,
   check_schema_monitor_interval c.schema_monitor_interval].filterMap id

/-- `DriverConfigBuilder.from_file`: building `PartialConfigFromFile` either
succeeds or raises `DriverConfigException` wrapping the pydantic
`ValidationError` (here: the generic message plus the per-field messages). -/
def from_file (c : PartialConfigFromFile) :
    Except (String × List String) PartialConfigFromFile :=
  match fileValidationErrors c with
  | [] => .ok c
  | errs => .error ("Invalid driver configuration for On-Prem deployment: " ++
      "the driver option from file is missing or invalid", errs)

theorem check_table_level_monitor_interval_none_iff (v : Int) :
    check_table_level_monitor_interval v = none ↔ 300 ≤ v := by
  unfold check_table_level_monitor_interval
  split_ifs with h <;> simp <;> omega

theorem check_monitor_interval_none_iff (v : Int) :
    check_monitor_interval v = none ↔ 60 ≤ v := by
  unfold check_monitor_interval
  split_ifs with h <;> simp <;> omega

theorem check_long_running_query_monitor_interval_none_iff (v : Int) :
    check_long_running_query_monitor_interval v = none ↔ 60 ≤ v := by
  unfold check_long_running_query_monitor_interval
  split_ifs with h <;> simp <;> omega

theorem check_lr_query_latency_threshold_min_none_iff (v : Int) :
    check_lr_query_latency_threshold_min v = none ↔ 1 ≤ v := by
  unfold check_lr_query_latency_threshold_min
  split_ifs with h <;> simp <;> omega

theorem check_num_table_to_collect_stats_none_iff (v : Int) :
    check_num_table_to_collect_stats v = none ↔ 0 ≤ v := by
  unfold check_num_table_to_collect_stats
  split_ifs with h <;> simp <;> omega

theorem check_num_index_to_collect_stats_none_iff (v : Int) :
    check_num_index_to_collect_stats v = none ↔ 0 ≤ v := by
  unfold check_num_index_to_collect_stats
  split_ifs with h <;> simp <;> omega

theorem check_query_monitor_interval_none_iff (v : Int) :
    check_query_monitor_interval v = none ↔ 300 ≤ v := by
  unfold check_query_monitor_interval
  split_ifs with h <;> simp <;> omega

theorem check_num_query_to_collect_none_iff (v : Int) :
    check_num_query_to_collect v = none ↔ 0 ≤ v := by
  unfold check_num_query_to_collect
  split_ifs with h <;> simp <;> omega

theorem check_schema_monitor_interval_none_iff (v : Int) :
    check_schema_monitor_interval v = none ↔ 300 ≤ v := by
  unfold check_schema_monitor_interval
  split_ifs with h <;> simp <;> omega

theorem fileValidationErrors_eq_nil_iff (c : PartialConfigFromFile) :
    fileValidationErrors c = [] ↔
      (60 ≤ c.monitor_interval ∧ 300 ≤ c.table_level_monitor_interval ∧
       60 ≤ c.long_running_query_monitor_interval ∧ 300 ≤ c.query_monitor_interval ∧
       300 ≤ c.schema_monitor_interval ∧ 1 ≤ c.lr_query_latency_threshold_min ∧
       0 ≤ c.num_table_to_collect_stats ∧ 0 ≤ c.num_index_to_collect_stats ∧
       0 ≤ c.num_query_to_collect) := by
  unfold fileValidationErrors
  rw [List.filterMap_eq_nil_iff]
  simp only [List.mem_cons, List.not_mem_nil, or_false, forall_eq_or_imp, forall_eq, id_eq]
  rw [check_table_level_monitor_interval_none_iff, check_monitor_interval_none_iff,
    check_long_running_query_monitor_interval_none_iff,
    check_lr_query_latency_threshold_min_none_iff,
    check_num_table_to_collect_stats_none_iff, check_num_index_to_collect_stats_none_iff,
    check_query_monitor_interval_none_iff, check_num_query_to_collect_none_iff,
    check_schema_monitor_interval_none_iff]
  tauto

theorem from_file_isOk_iff (c : PartialConfigFromFile) :
    (from_file c).isOk = true ↔ fileValidationErrors c = [] := by
  unfold from_file
  cases hE : fileValidationErrors c with
  | nil => simp [Except.isOk, Except.toBool]
  | cons a as => simp [Except.isOk, Except.toBool]

theorem from_file_error_eq {c : PartialConfigFromFile} {g : String} {errs : List String}
    (h : from_file c = .error (g, errs)) : errs = fileValidationErrors c := by
  unfold from_file at h
  cases hE : fileValidationErrors c with
  | nil => rw [hE] at h; cases h
  | cons a as =>
    rw [hE] at h
    injection h with h1
    exact (congrArg Prod.snd h1).symm

/-- **C4** (corrected). Building the file layer succeeds iff
`monitor_interval ≥ 60`, `table_level_monitor_interval ≥ 300`,
`long_running_query_monitor_interval ≥ 60`, `query_monitor_interval ≥ 300`,
`schema_monitor_interval ≥ 300`, `lr_query_latency_threshold_min ≥ 1` and the
three collection caps are non-negative — `agent_health_report_interval` has no
validator, so `> 0` is NOT enforced (see the counterexample) — and every
violated bound is rejected with an error message naming the offending field. -/
theorem C4_from_file_validation (c : PartialConfigFromFile) :
    ((from_file c).isOk = true ↔
      (60 ≤ c.monitor_interval ∧ 300 ≤ c.table_level_monitor_interval ∧
       60 ≤ c.long_running_query_monitor_interval ∧ 300 ≤ c.query_monitor_interval ∧
       300 ≤ c.schema_monitor_interval ∧ 1 ≤ c.lr_query_latency_threshold_min ∧
       0 ≤ c.num_table_to_collect_stats ∧ 0 ≤ c.num_index_to_collect_stats ∧
       0 ≤ c.num_query_to_collect)) ∧
    (∀ gmsg errs, from_file c = .error (gmsg, errs) →
      ((c.monitor_interval < 60 →
          ∃ m ∈ errs, strContains m "monitor_interval" = true) ∧
       (c.table_level_monitor_interval < 300 →
          ∃ m ∈ errs, strContains m "table_level_monitor_interval" = true) ∧
       (c.long_running_query_monitor_interval < 60 →
          ∃ m ∈ errs, strContains m "long_running_query_monitor_interval" = true) ∧
       (c.query_monitor_interval < 300 →
          ∃ m ∈ errs, strContains m "query_monitor_interval" = true) ∧
       (c.schema_monitor_interval < 300 →
          ∃ m ∈ errs, strContains m "schema_monitor_interval" = true) ∧
       (c.lr_query_latency_threshold_min < 1 →
          ∃ m ∈ errs, strContains m "lr_query_latency_threshold_min" = true) ∧
       (c.num_table_to_collect_stats < 0 →
          ∃ m ∈ errs, strContains m "num_table_to_collect_stats" = true) ∧
       (c.num_index_to_collect_stats < 0 →
          ∃ m ∈ errs, strContains m "num_index_to_collect_stats" = true) ∧
       (c.num_query_to_collect < 0 →
          ∃ m ∈ errs, strContains m "num_query_to_collect" = true))) := by
  constructor
  · rw [from_file_isOk_iff, fileValidationErrors_eq_nil_iff]
  · intro gmsg errs herr
    have herrs := from_file_error_eq herr
    subst herrs
    refine ⟨fun h => ?_, fun h => ?_, fun h => ?_, fun h => ?_, fun h => ?_,
      fun h => ?_, fun h => ?_, fun h => ?_, fun h => ?_⟩
    · refine ⟨_, List.mem_filterMap.mpr
        ⟨check_monitor_interval c.monitor_interval, by simp [fileValidationErrors],
         by unfold check_monitor_interval; rw [if_pos h]; rfl⟩, ?_⟩
      exact strContains_append_left _ _ _ (strContains_append_left _ _ _
        (strContains_append_left _ _ _ (by decide)))
    · refine ⟨_, List.mem_filterMap.mpr
        ⟨check_table_level_monitor_interval c.table_level_monitor_interval,
         by simp [fileValidationErrors],
         by unfold check_table_level_monitor_interval; rw [if_pos h]; rfl⟩, ?_⟩
      exact strContains_append_left _ _ _ (strContains_append_left _ _ _
        (strContains_append_left _ _ _ (by decide)))
    · refine ⟨_, List.mem_filterMap.mpr
        ⟨check_long_running_query_monitor_interval c.long_running_query_monitor_interval,
         by simp [fileValidationErrors],
         by unfold check_long_running_query_monitor_interval; rw [if_pos h]; rfl⟩, ?_⟩
      exact strContains_append_left _ _ _ (strContains_append_left _ _ _
        (strContains_append_left _ _ _ (by decide)))
    · refine ⟨_, List.mem_filterMap.mpr
        ⟨check_query_monitor_interval c.query_monitor_interval,
         by simp [fileValidationErrors],
         by unfold check_query_monitor_interval; rw [if_pos h]; rfl⟩, ?_⟩
      exact strContains_append_left _ _ _ (strContains_append_left _ _ _
        (strContains_append_left _ _ _ (by decide)))
    · refine ⟨_, List.mem_filterMap.mpr
        ⟨check_schema_monitor_interval c.schema_monitor_interval,
         by simp [fileValidationErrors],
         by unfold check_schema_monitor_interval; rw [if_pos h]; rfl⟩, ?_⟩
      exact strContains_append_left _ _ _ (strContains_append_left _ _ _
        (strContains_append_left _ _ _ (by decide)))
    · refine ⟨_, List.mem_filterMap.mpr
        ⟨check_lr_query_latency_threshold_min c.lr_query_latency_threshold_min,
         by simp [fileValidationErrors],
         by unfold check_lr_query_latency_threshold_min; rw [if_pos h]; rfl⟩, ?_⟩
      exact strContains_append_left _ _ _ (strContains_append_left _ _ _
        (strContains_append_left _ _ _ (by decide)))
    · refine ⟨_, List.mem_filterMap.mpr
        ⟨check_num_table_to_collect_stats c.num_table_to_collect_stats,
         by simp [fileValidationErrors],
         by unfold check_num_table_to_collect_stats; rw [if_pos h]; rfl⟩, ?_⟩
      exact strContains_append_left _ _ _ (strContains_append_left _ _ _
        (strContains_append_left _ _ _ (by decide)))
    · refine ⟨_, List.mem_filterMap.mpr
        ⟨check_num_index_to_collect_stats c.num_index_to_collect_stats,
         by simp [fileValidationErrors],
         by unfold check_num_index_to_collect_stats; rw [if_pos h]; rfl⟩, ?_⟩
      exact strContains_append_left _ _ _ (strContains_append_left _ _ _
        (strContains_append_left _ _ _ (by decide)))
    · refine ⟨_, List.mem_filterMap.mpr
        ⟨check_num_query_to_collect c.num_query_to_collect,
         by simp [fileValidationErrors],
         by unfold check_num_query_to_collect; rw [if_pos h]; rfl⟩, ?_⟩
      exact strContains_append_left _ _ _ (strContains_append_left _ _ _
        (strContains_append_left _ _ _ (by decide)))

/-- A file config violating only `monitor_interval`. -/
def fileConfigBadMonitor : PartialConfigFromFile :=
  { server_url := "http://server", monitor_interval := 0,
    num_table_to_collect_stats := 10, table_level_monitor_interval := 300,
    num_index_to_collect_stats := 10, long_running_query_monitor_interval := 60,
    lr_query_latency_threshold_min := 5, query_monitor_interval := 300,
    num_query_to_collect := 100, metric_source := ["cloudwatch"],
    schema_monitor_interval := 300, agent_health_report_interval := 30 }

theorem C4_from_file_validation_witness :
    ∃ m ∈ (fileValidationErrors fileConfigBadMonitor),
      strContains m "monitor_interval" = true :=
  ((C4_from_file_validation fileConfigBadMonitor).2 _ _ (by rfl)).1 (by decide)

/-- A file config that satisfies every implemented validator but has
`agent_health_report_interval = 0`. -/
def fileConfigZeroHealth : PartialConfigFromFile :=
  { server_url := "http://server", monitor_interval := 60,
    num_table_to_collect_stats := 10, table_level_monitor_interval := 300,
    num_index_to_collect_stats := 10, long_running_query_monitor_interval := 60,
    lr_query_latency_threshold_min := 5, query_monitor_interval := 300,
    num_query_to_collect := 100, metric_source := ["cloudwatch"],
    schema_monitor_interval := 300, agent_health_report_interval := 0 }

/-- **C4 counterexample**: `agent_health_report_interval = 0` violates the
claimed bound `> 0`, yet building the file layer succeeds — the source defines
no validator for this field. -/
theorem C4_counterexample :
    from_file fileConfigZeroHealth = .ok fileConfigZeroHealth ∧
    fileConfigZeroHealth.agent_health_report_interval ≤ 0 :=
  ⟨by rfl, by decide⟩

/-! ## PostgreSQL collector: target table / index list rendering
(`driver/collector/postgres_collector.py`, `get_target_table_info` and
`collect_index_metrics`) -/

/-- Python `str` of a tuple of ints (`"()"`, `"(x,)"`, `"(a, b, ...)"`). -/
def pyTupleStr (ts : List Int) : String :=
  match ts with
  | [] => "()"
  | [x] => "(" ++ toString x ++ ",)"
  | _ => "(" ++ String.intercalate ", " (ts.map toString) ++ ")"

/-- `PostgresCollector.get_target_table_info`: build `target_tables` from the
top-N query rows (each row indexed at position 0) and render
`target_tables_str` with the guarded conditional expression of the source.
Indexing is modelled with `List.get?`; `none` models a Python `IndexError`. -/
def get_target_table_info (target_tables_tuple : List (List Int)) :
    Option (List Int × String) := do
  let target_tables ← target_tables_tuple.mapM (fun table => table.get? 0)
  let target_tables_str ←
    if target_tables.length > 1 then some (pyTupleStr target_tables)
    else if target_tables.length == 1 then
      (target_tables.get? 0).map (fun x => "(" ++ toString x ++ ")")
    else some "(0)"
  pure (target_tables, target_tables_str)

/-- The `target_indexes` / `target_indexes_str` construction inside
`PostgresCollector.collect_index_metrics` (textually the same guarded
expression as in `get_target_table_info`). -/
def collect_index_metrics_target_str (target_indexes_tuple : List (List Int)) :
    Option (List Int × String) := do
  let target_indexes ← target_indexes_tuple.mapM (fun index => index.get? 0)
  let target_indexes_str ←
    if target_indexes.length > 1 then some (pyTupleStr target_indexes)
    else if target_indexes.length == 1 then
      (target_indexes.get? 0).map (fun x => "(" ++ toString x ++ ")")
    else some "(0)"
  pure (target_indexes, target_indexes_str)

/-- The claim's description of the rendered SQL list: `"(0)"` for no table,
`"(<relid>)"` (no trailing comma) for one, the tuple rendering for two or more. -/
def claimTargetStr : List Int → String
  | [] => "(0)"
  | [x] => "(" ++ toString x ++ ")"
  | ts => "(" ++ String.intercalate ", " (ts.map toString) ++ ")"

theorem mapM_head_of_nonempty (rows : List (List Int)) (h : ∀ r ∈ rows, r ≠ []) :
    ∃ ts : List Int, rows.mapM (fun r => r.get? 0) = some ts ∧
      ts.length = rows.length := by
  induction rows with
  | nil => exact ⟨[], rfl, rfl⟩
  | cons r rs ih =>
    obtain ⟨ts, hts, hlen⟩ := ih (fun x hx => h x (List.mem_cons_of_mem _ hx))
    cases r with
    | nil => exact absurd rfl (h [] (by simp))
    | cons a as =>
      refine ⟨a :: ts, ?_, by simp [hlen]⟩
      simp only [List.mapM_cons, hts]
      rfl

/-- **C10** (confirmed). For every result set of the top-N tables query whose
rows are non-empty (the query selects a column, so every row has one), both
`get_target_table_info` and the `target_indexes_str` construction in
`collect_index_metrics` are total and return the well-formed parenthesized SQL
list the claim describes: `"(0)"` when no row qualifies, `"(<relid>)"` without
trailing comma for exactly one, and the tuple rendering for two or more; the
guarded indexing never produces an `IndexError`. -/
theorem C10_target_table_info_total (rows : List (List Int))
    (hrow : ∀ row ∈ rows, row ≠ []) :
    (∃ ts, get_target_table_info rows = some (ts, claimTargetStr ts) ∧
      ts.length = rows.length) ∧
    (∃ ts, collect_index_metrics_target_str rows = some (ts, claimTargetStr ts) ∧
      ts.length = rows.length) := by
  obtain ⟨ts, hts, hlen⟩ := mapM_head_of_nonempty rows hrow
  constructor
  · refine ⟨ts, ?_, hlen⟩
    unfold get_target_table_info
    rw [hts]
    rcases ts with _ | ⟨x, _ | ⟨y, zs⟩⟩ <;>
      simp [claimTargetStr, pyTupleStr, Option.bind]
  · refine ⟨ts, ?_, hlen⟩
    unfold collect_index_metrics_target_str
    rw [hts]
    rcases ts with _ | ⟨x, _ | ⟨y, zs⟩⟩ <;>
      simp [claimTargetStr, pyTupleStr, Option.bind]

theorem C10_target_table_info_total_witness :
    ∃ ts, get_target_table_info [[42]] = some (ts, claimTargetStr ts) ∧
      ts.length = ([[42]] : List (List Int)).length :=
  (C10_target_table_info_total [[42]] (by decide)).1

/-! ## Two's-complement alignment rounding

Python integers are unbounded two's-complement values, so
`(offset + c) & ~c` for a mask `c = 2^k - 1` is `Int.land _ (Int.lnot c)`.
These lemmas show the bit trick equals arithmetic rounding. -/

theorem testBit_of_ge (m k i : Nat) (h : k ≤ i) :
    Nat.testBit m i = Nat.testBit (m / 2^k) (i - k) := by
  rw [Nat.testBit_to_div_mod, Nat.testBit_to_div_mod, Nat.div_div_eq_div_mul, ← pow_add]
  have hki : k + (i - k) = i := by omega
  rw [hki]

theorem ldiff_mask (k m : Nat) : Nat.ldiff m (2^k - 1) = 2^k * (m / 2^k) := by
  apply Nat.eq_of_testBit_eq
  intro i
  rw [Nat.testBit_ldiff, Nat.testBit_two_pow_sub_one]
  have h2 : Nat.testBit (2^k * (m / 2^k)) i
      = if i < k then false else Nat.testBit (m / 2^k) (i - k) := by
    have := Nat.testBit_mul_pow_two_add (m / 2^k)
      (b := 0) (i := k) (by positivity) i
    simpa using this
  rw [h2]
  by_cases hik : i < k
  · simp [hik]
  · simp [hik, testBit_of_ge m k i (by omega)]

theorem lor_mask (k m : Nat) : m ||| (2^k - 1) = 2^k * (m / 2^k) + (2^k - 1) := by
  apply Nat.eq_of_testBit_eq
  intro i
  rw [Nat.testBit_or, Nat.testBit_two_pow_sub_one]
  have h2 : Nat.testBit (2^k * (m / 2^k) + (2^k - 1)) i
      = if i < k then Nat.testBit (2^k - 1) i else Nat.testBit (m / 2^k) (i - k) := by
    exact Nat.testBit_mul_pow_two_add (m / 2^k)
      (b := 2^k - 1) (i := k)
      (Nat.sub_lt (by positivity) (by norm_num)) i
  rw [h2]
  by_cases hik : i < k
  · simp [hik, Nat.testBit_two_pow_sub_one]
  · simp [hik, testBit_of_ge m k i (by omega)]

/-- Two's-complement masking clears the low `k` bits: for every integer `x`,
`x & ~(2^k - 1) = 2^k * (x / 2^k)` (with floor division). -/
theorem land_lnot_mask (k : Nat) (x : ℤ) :
    Int.land x (Int.lnot ((2:ℤ)^k - 1)) = 2^k * (x / 2^k) := by
  have hc : ((2:ℤ)^k - 1) = ((2^k - 1 : ℕ) : ℤ) := by
    rw [Nat.cast_sub Nat.one_le_two_pow]
    push_cast
    ring
  rw [hc]
  have hlnot : Int.lnot ((2^k - 1 : ℕ) : ℤ) = Int.negSucc (2^k - 1) := rfl
  rw [hlnot]
  cases x with
  | ofNat m =>
    have hland : Int.land (Int.ofNat m) (Int.negSucc (2^k - 1))
        = Int.ofNat (Nat.ldiff m (2^k - 1)) := rfl
    rw [hland, ldiff_mask]
    show ((2^k * (m / 2^k) : ℕ) : ℤ) = 2^k * ((m : ℤ) / 2^k)
    have h1 : ((m : ℤ)) / ((2:ℤ)^k) = ((m / 2^k : ℕ) : ℤ) := by
      have hpow : ((2:ℤ))^k = ((2^k : ℕ) : ℤ) := by push_cast; ring
      rw [hpow, ← Int.ofNat_ediv]
    rw [h1]
    push_cast
    ring
  | negSucc m =>
    have hland : Int.land (Int.negSucc m) (Int.negSucc (2^k - 1))
        = Int.negSucc (m ||| (2^k - 1)) := rfl
    rw [hland, lor_mask]
    set q : ℕ := m / 2^k with hq
    set r : ℕ := m % 2^k with hr
    have hm : (m : ℤ) = 2^k * q + r := by
      have h0 : 2^k * q + r = m := Nat.div_add_mod m (2^k)
      exact_mod_cast h0.symm
    have hrlt : (r : ℤ) < 2^k := by
      have : m % 2^k < 2^k := Nat.mod_lt _ (by positivity)
      exact_mod_cast this
    have hrnn : (0:ℤ) ≤ r := by positivity
    have hdiv : Int.negSucc m / (2:ℤ)^k = -(q + 1) := by
      have h := (Int.ediv_emod_unique (a := Int.negSucc m) (b := (2:ℤ)^k)
        (q := -(q+1)) (r := 2^k - 1 - r) (by positivity)).mpr ?_
      · exact h.1
      · refine ⟨?_, by omega, by omega⟩
        rw [Int.negSucc_eq, hm]
        ring
    rw [hdiv, Int.negSucc_eq]
    push_cast [Nat.cast_sub (Nat.one_le_two_pow)]
    ring

/-- Round `offset` up to the next multiple of `align` (the claim's notion of
an alignment boundary), as floor division arithmetic. -/
def roundUpTo (offset align : Int) : Int := align * ((offset + align - 1) / align)

theorem alignUp_eq (k : Nat) (offset a : Int) (ha : a = 2^k) :
    Int.land (offset + (a - 1)) (Int.lnot (a - 1)) = roundUpTo offset a := by
  subst ha
  have h := land_lnot_mask k (offset + ((2:ℤ)^k - 1))
  calc Int.land (offset + ((2:ℤ)^k - 1)) (Int.lnot ((2:ℤ)^k - 1))
      = 2^k * ((offset + ((2:ℤ)^k - 1)) / 2^k) := h
    _ = roundUpTo offset (2^k) := by
        unfold roundUpTo
        congr 2
        ring

/-! ## PostgreSQL collector: `_calculate_padding_size_for_table`
(`driver/collector/postgres_collector.py` lines 863-883,
`ALIGNMENT_DICT` from `pg_table_level_stats_sqls.py`) -/

/-- One row of the padding-helper query:
`('relid', 'attname', 'attalign', 'avg_width')`. -/
structure TableFieldInfo where
  relid : Int
  attname : String
  attalign : Char
  avg_width : Int
deriving DecidableEq

/-- `ALIGNMENT_DICT = {"c": 1, "s": 2, "i": 4, "d": 8}`; `none` models the
Python `KeyError` for any other alignment code. -/
def ALIGNMENT_DICT : Char → Option Int
  | 'c' => some 1
  | 's' => some 2
  | 'i' => some 4
  | 'd' => some 8
  | _ => none

/-- The loop of `_calculate_padding_size_for_table` over
`table_fields_info[1:]`, followed by the final 4-byte tuple padding:
`padded_size = ((offset + cur_alignment_) & ~cur_alignment_)`. -/
def paddingLoop : List TableFieldInfo → Int → Int → Option Int
  | [], offset, padding =>
    let padded_size := Int.land (offset + 3) (Int.lnot 3)
    some (padding + (padded_size - offset))
  | field :: rest, offset, padding =>
    match ALIGNMENT_DICT field.attalign with
    | none => none
    | some cur_alignment =>
      let cur_alignment' := cur_alignment - 1
      let padded_size := Int.land (offset + cur_alignment') (Int.lnot cur_alignment')
      paddingLoop rest (padded_size + field.avg_width) (padding + (padded_size - offset))

/-- `PostgresCollector._calculate_padding_size_for_table`: the offset starts at
the first attribute's `avg_width`; `none` models the `IndexError`/`KeyError`
paths (empty list, alignment code outside the dict). -/
def calculate_padding_size_for_table : List TableFieldInfo → Option Int
  | [] => none
  | field0 :: rest => paddingLoop rest field0.avg_width 0

/-- The claim's padding sum: over each attribute after the first, the gap
obtained by rounding the running offset up to that attribute's alignment
boundary, plus a final gap rounding the end offset up to a multiple of 4. -/
def claimPaddingLoop : List TableFieldInfo → Int → Option Int
  | [], offset => some (roundUpTo offset 4 - offset)
  | field :: rest, offset =>
    match ALIGNMENT_DICT field.attalign with
    | none => none
    | some a =>
      (claimPaddingLoop rest (roundUpTo offset a + field.avg_width)).map
        (fun rest_sum => (roundUpTo offset a - offset) + rest_sum)

/-- The claim's total padding for a table. -/
def claimPaddingSum : List TableFieldInfo → Option Int
  | [] => none
  | field0 :: rest => claimPaddingLoop rest field0.avg_width

theorem ALIGNMENT_DICT_values (c : Char) (a : Int) (h : ALIGNMENT_DICT c = some a) :
    a = 1 ∨ a = 2 ∨ a = 4 ∨ a = 8 := by
  unfold ALIGNMENT_DICT at h
  split at h <;> simp_all

theorem paddingLoop_eq_claim (fields : List TableFieldInfo) (offset padding : Int) :
    paddingLoop fields offset padding =
      (claimPaddingLoop fields offset).map (fun s => padding + s) := by
  induction fields generalizing offset padding with
  | nil =>
    simp only [paddingLoop, claimPaddingLoop, Option.map_some']
    have h4 : Int.land (offset + 3) (Int.lnot 3) = roundUpTo offset 4 := by
      have := alignUp_eq 2 offset 4 (by norm_num)
      norm_num at this
      exact this
    rw [h4]
  | cons f rest ih =>
    cases hA : ALIGNMENT_DICT f.attalign with
    | none => simp [paddingLoop, claimPaddingLoop, hA]
    | some a =>
      have ha := ALIGNMENT_DICT_values _ _ hA
      simp only [paddingLoop, claimPaddingLoop, hA]
      rw [ih]
      have key : ∀ k : Nat, a = 2^k →
          (claimPaddingLoop rest
              (Int.land (offset + (a - 1)) (Int.lnot (a - 1)) + f.avg_width)).map
            (fun s => padding + (Int.land (offset + (a - 1)) (Int.lnot (a - 1)) - offset) + s) =
          ((claimPaddingLoop rest (roundUpTo offset a + f.avg_width)).map
            (fun rest_sum => roundUpTo offset a - offset + rest_sum)).map
            (fun s => padding + s) := by
        intro k hk
        rw [alignUp_eq k offset a hk, Option.map_map]
        congr 1
        funext s
        simp only [Function.comp]
        ring
      rcases ha with rfl | rfl | rfl | rfl
      · exact key 0 (by norm_num)
      · exact key 1 (by norm_num)
      · exact key 2 (by norm_num)
      · exact key 3 (by norm_num)

theorem claimPaddingLoop_isSome (fields : List TableFieldInfo) (offset : Int)
    (hal : ∀ f ∈ fields, (ALIGNMENT_DICT f.attalign).isSome = true) :
    ∃ n, claimPaddingLoop fields offset = some n := by
  induction fields generalizing offset with
  | nil => exact ⟨_, rfl⟩
  | cons f rest ih =>
    cases hA : ALIGNMENT_DICT f.attalign with
    | none =>
      have := hal f (by simp)
      rw [hA] at this
      simp at this
    | some a =>
      obtain ⟨n, hn⟩ := ih (roundUpTo offset a + f.avg_width)
        (fun g hg => hal g (List.mem_cons_of_mem _ hg))
      exact ⟨roundUpTo offset a - offset + n, by simp [claimPaddingLoop, hA, hn]⟩

/-- **C6** (confirmed). For every non-empty attribute list in column order with
`attalign` codes in `{c: 1, s: 2, i: 4, d: 8}` and integer `avg_width`,
`_calculate_padding_size_for_table` returns exactly the sum, over each
attribute after the first, of the gap obtained by rounding the running offset
up to that attribute's alignment boundary, plus the final gap rounding the end
offset up to a multiple of 4 bytes.  (The two's-complement bit trick
`(offset + a-1) & ~(a-1)` is proved equal to arithmetic round-up for every
integer offset.) -/
theorem C6_calculate_padding_size (fields : List TableFieldInfo)
    (hne : fields ≠ [])
    (hal : ∀ f ∈ fields, (ALIGNMENT_DICT f.attalign).isSome = true) :
    calculate_padding_size_for_table fields = claimPaddingSum fields ∧
    ∃ n, calculate_padding_size_for_table fields = some n := by
  have heq : calculate_padding_size_for_table fields = claimPaddingSum fields := by
    cases fields with
    | nil => rfl
    | cons f0 rest =>
      show paddingLoop rest f0.avg_width 0 = claimPaddingLoop rest f0.avg_width
      rw [paddingLoop_eq_claim]
      cases claimPaddingLoop rest f0.avg_width <;> simp
  refine ⟨heq, ?_⟩
  cases fields with
  | nil => exact absurd rfl hne
  | cons f0 rest =>
    obtain ⟨n, hn⟩ := claimPaddingLoop_isSome rest f0.avg_width
      (fun g hg => hal g (List.mem_cons_of_mem _ hg))
    exact ⟨n, by rw [heq]; exact hn⟩

/-- Concrete padding example: int4 column, then a float8 (gap 4), then a
char (gap 0), final tuple pad to 4 bytes (gap 3): total 7. -/
def paddingDemoFields : List TableFieldInfo :=
  [⟨1544350, "fixture_id", 'i', 4⟩,
   ⟨1544350, "created_at", 'd', 8⟩,
   ⟨1544350, "flag", 'c', 1⟩]

theorem C6_calculate_padding_size_witness :
    calculate_padding_size_for_table paddingDemoFields = some 7 :=
  ((C6_calculate_padding_size paddingDemoFields (by decide) (by decide)).1).trans
    (by decide)

/-! ## PostgreSQL collector: `_calculate_bloat_ratio_for_table`
(`driver/collector/postgres_collector.py` lines 808-836).
Python float arithmetic is idealised over `ℚ`; `math.ceil` and float `%`
are modelled with `Rat.floor` (computable). -/

/-- `math.ceil` on rationals. -/
def pyCeil (q : ℚ) : Int := -(Rat.floor (-q))

/-- Python float `%`: `a - b * floor(a / b)` (sign of the divisor). -/
def qfmod (a b : ℚ) : ℚ := a - b * (Rat.floor (a / b))

theorem ratFloor_eq (q : ℚ) : (Rat.floor q : ℤ) = ⌊q⌋ := by
  rw [Rat.floor_def' q, Rat.floor_def]

theorem pyCeil_eq (q : ℚ) : pyCeil q = ⌈q⌉ := by
  rw [pyCeil, ratFloor_eq, Int.floor_neg, neg_neg]

theorem qfmod_eq_fract (a b : ℚ) (hb : b ≠ 0) : qfmod a b = b * Int.fract (a / b) := by
  unfold qfmod
  have hf : ((a / b).floor : ℤ) = ⌊a / b⌋ := ratFloor_eq _
  rw [hf, Int.fract, mul_sub, mul_comm b (a / b), div_mul_cancel₀ a hb]

theorem qfmod_nonneg (a b : ℚ) (hb : 0 < b) : 0 ≤ qfmod a b := by
  rw [qfmod_eq_fract a b (ne_of_gt hb)]
  exact mul_nonneg (le_of_lt hb) (Int.fract_nonneg _)

theorem qfmod_lt (a b : ℚ) (hb : 0 < b) : qfmod a b < b := by
  rw [qfmod_eq_fract a b (ne_of_gt hb)]
  calc b * Int.fract (a / b) < b * 1 := by
        exact mul_lt_mul_of_pos_left (Int.fract_lt_one _) hb
    _ = b := mul_one b

/-- The `tpl_size` computed inside `_calculate_bloat_ratio_for_table`. -/
def bloatTplSize (padding_size : Int) (tpl_data_size tpl_hdr_size : ℚ) (ma : Int) : ℚ :=
  let tpl_data_size' := tpl_data_size + padding_size
  4 + tpl_hdr_size + tpl_data_size' + 2 * ma
    - (if qfmod tpl_hdr_size ma = 0 then (ma : ℚ) else qfmod tpl_hdr_size ma)
    - (if pyCeil tpl_data_size' % ma = 0 then (ma : ℚ)
       else ((pyCeil tpl_data_size' % ma : Int) : ℚ))

/-- `PostgresCollector._calculate_bloat_ratio_for_table`: `None` iff `is_na`,
else the ratio with the `max(0, ...)` branch written as in the source. -/
def calculate_bloat_ratio_for_table (is_na : Bool) (padding_size : Int)
    (tpl_data_size tpl_hdr_size : ℚ) (ma : Int)
    (tblpages reltuples bs page_hdr fillfactor : ℚ) : Option ℚ :=
  if is_na then none
  else
    let tpl_size := bloatTplSize padding_size tpl_data_size tpl_hdr_size ma
    let est_tblpages_ff : Int :=
      pyCeil (reltuples / ((bs - page_hdr) * fillfactor / (tpl_size * 100)))
    if tblpages - est_tblpages_ff > 0 then
      some (100 * (tblpages - est_tblpages_ff) / tblpages)
    else some 0

theorem bloatTplSize_pos (padding_size : Int) (tpl_data_size tpl_hdr_size : ℚ)
    (ma : Int) (h1 : 0 ≤ tpl_hdr_size) (h2 : 0 ≤ tpl_data_size)
    (h3 : 0 ≤ padding_size) (h4 : 0 < ma) :
    0 < bloatTplSize padding_size tpl_data_size tpl_hdr_size ma := by
  unfold bloatTplSize
  dsimp only
  have hma : (0:ℚ) < (ma:ℚ) := by exact_mod_cast h4
  have hpad : (0:ℚ) ≤ (padding_size:ℚ) := by exact_mod_cast h3
  have hb1 : (if qfmod tpl_hdr_size ma = 0 then (ma:ℚ) else qfmod tpl_hdr_size ma)
      ≤ (ma:ℚ) := by
    split_ifs with h
    · exact le_refl _
    · exact le_of_lt (qfmod_lt _ _ hma)
  have hb2 : (if pyCeil (tpl_data_size + padding_size) % ma = 0 then (ma:ℚ)
      else ((pyCeil (tpl_data_size + padding_size) % ma : Int) : ℚ)) ≤ (ma:ℚ) := by
    split_ifs with h
    · exact le_refl _
    · have := Int.emod_lt_of_pos (pyCeil (tpl_data_size + padding_size)) h4
      exact_mod_cast le_of_lt this
  linarith

/-- **C5** (confirmed). `_calculate_bloat_ratio_for_table` returns `null` iff
`is_na` is true; otherwise, for inputs as produced by the bloat-factor query
(`tblpages > 0`, `reltuples ≥ 0`, `page_hdr < bs`, `fillfactor > 0`,
`tpl_hdr_size ≥ 0`, `tpl_data_size ≥ 0`, `padding ≥ 0`, `ma > 0`), the result
equals `max(0, 100 * (tblpages - est_pages_ff) / tblpages)` with
`est_pages_ff = ceil(reltuples / ((bs - page_hdr) * fillfactor / (tpl_size * 100)))`
and lies in `[0, 100]`. -/
theorem C5_bloat_ratio (is_na : Bool) (padding_size : Int)
    (tpl_data_size tpl_hdr_size : ℚ) (ma : Int)
    (tblpages reltuples bs page_hdr fillfactor : ℚ) :
    (is_na = true →
      calculate_bloat_ratio_for_table is_na padding_size tpl_data_size tpl_hdr_size
        ma tblpages reltuples bs page_hdr fillfactor = none) ∧
    (is_na = false →
      ∃ r, calculate_bloat_ratio_for_table is_na padding_size tpl_data_size tpl_hdr_size
        ma tblpages reltuples bs page_hdr fillfactor = some r) ∧
    (is_na = false → 0 < tblpages → 0 ≤ reltuples → page_hdr < bs → 0 < fillfactor →
      0 ≤ tpl_hdr_size → 0 ≤ tpl_data_size → 0 ≤ padding_size → 0 < ma →
      ∃ r, calculate_bloat_ratio_for_table is_na padding_size tpl_data_size tpl_hdr_size
          ma tblpages reltuples bs page_hdr fillfactor = some r ∧
        r = max 0 (100 * (tblpages -
          ((⌈reltuples / ((bs - page_hdr) * fillfactor /
              (bloatTplSize padding_size tpl_data_size tpl_hdr_size ma * 100))⌉ : ℤ) : ℚ))
          / tblpages) ∧
        0 ≤ r ∧ r ≤ 100) := by
  refine ⟨fun h => ?_, ⟨fun h => ?_, fun h htbl hrel hbs hff hhdr hdata hpad hma => ?_⟩⟩
  · simp [calculate_bloat_ratio_for_table, h]
  · rw [calculate_bloat_ratio_for_table, if_neg (by simp [h])]
    dsimp only
    split_ifs <;> exact ⟨_, rfl⟩
  · have hts : 0 < bloatTplSize padding_size tpl_data_size tpl_hdr_size ma :=
      bloatTplSize_pos _ _ _ _ hhdr hdata hpad hma
    set T : ℚ := bloatTplSize padding_size tpl_data_size tpl_hdr_size ma with hT
    have hD : 0 < (bs - page_hdr) * fillfactor / (T * 100) := by
      apply div_pos
      · exact mul_pos (by linarith) hff
      · positivity
    set E : ℤ := ⌈reltuples / ((bs - page_hdr) * fillfactor / (T * 100))⌉ with hE
    have hEnn : 0 ≤ E := Int.ceil_nonneg (div_nonneg hrel (le_of_lt hD))
    have hEQ : (0:ℚ) ≤ (E:ℚ) := by exact_mod_cast hEnn
    rw [calculate_bloat_ratio_for_table, if_neg (by simp [h])]
    dsimp only
    simp only [pyCeil_eq, ← hT, ← hE]
    split_ifs with hpos
    · refine ⟨_, rfl, ?_, ?_, ?_⟩
      · rw [max_eq_right]
        positivity
      · positivity
      · rw [div_le_iff₀ (by linarith)]
        nlinarith
    · push_neg at hpos
      refine ⟨0, rfl, ?_, le_refl 0, by norm_num⟩
      rw [eq_comm, max_eq_left]
      apply div_nonpos_of_nonpos_of_nonneg
      · nlinarith
      · linarith

theorem C5_bloat_ratio_witness :
    ∃ r, calculate_bloat_ratio_for_table false 0 4 23 8 100 1000 8192 24 100 = some r ∧
      0 ≤ r ∧ r ≤ 100 := by
  obtain ⟨r, hr, _, h0, h100⟩ :=
    (C5_bloat_ratio false 0 4 23 8 100 1000 8192 24 100).2.2 rfl (by decide) (by decide)
      (by decide) (by decide) (by decide) (by decide) (by decide) (by decide)
  exact ⟨r, hr, h0, h100⟩

/-! ## PostgreSQL collector: `_anonymize_query`
(`driver/collector/postgres_collector.py` lines 984-1007).
The function rewrites `row["query"]`; the embedding acts on that value. -/

/-- Python `str.lower` (ASCII range, which covers the collector's inputs). -/
def pyLower (s : String) : String := ⟨s.data.map Char.toLower⟩

/-- Python whitespace stripped by `str.strip()` (ASCII subset). -/
def isPyWhitespace (c : Char) : Bool :=
  c = ' ' || c = '\t' || c = '\n' || c = '\r' || c = '\x0b' || c = '\x0c'

/-- Python `str.strip()`. -/
def pyStrip (s : String) : String :=
  ⟨((s.data.dropWhile isPyWhitespace).reverse.dropWhile isPyWhitespace).reverse⟩

/-- Greedy tail of `.*[^;]` after the literal `"vacuum "`: the number of
characters matched by `.*` (which cannot cross a newline), such that the
following character exists and is not `';'` (the final `[^;]` may match any
character, including a newline).  `re` backtracking tries the longest first. -/
def vacuumTailLen (rest : List Char) : Option Nat :=
  let run := rest.takeWhile (fun c => c ≠ '\n')
  (List.range (run.length + 1)).reverse.find? (fun t =>
    match rest.get? t with
    | some c => c ≠ ';'
    | none => false)

/-- `re.search(r"vacuum .*[^;]", raw, re.MULTILINE | re.IGNORECASE)` on a
character list: leftmost starting position, greedy extent; returns the matched
characters. -/
def vacuumSearchFrom : List Char → Option (List Char)
  | [] => none
  | c :: cs =>
    if listIsPre "vacuum ".data ((c :: cs).map Char.toLower) then
      match vacuumTailLen ((c :: cs).drop 7) with
      | some t => some ((c :: cs).take (7 + t + 1))
      | none => vacuumSearchFrom cs
    else vacuumSearchFrom cs

/-- The regex search of `_anonymize_query`. -/
def vacuumSearch (s : String) : Option String :=
  (vacuumSearchFrom s.data).map String.mk

/-- `PostgresCollector._anonymize_query` acting on the query text. -/
def anonymize_query (raw_query : String) : String :=
  if strContains raw_query "autovacuum: " then raw_query
  else if strContains (pyLower raw_query) "vacuum " then
    match vacuumSearch raw_query with
    | some q => pyLower (pyStrip q)
    | none => raw_query
  else raw_query

/-- The rewrite claim C3 describes: keep rows containing `autovacuum:`
unchanged, else keep only the regex match (stripped, lower-cased), else DROP
the statement text (`none`). -/
def claimC3Transform (raw_query : String) : Option String :=
  if strContains raw_query "autovacuum:" then some raw_query
  else match vacuumSearch raw_query with
    | some q => some (pyLower (pyStrip q))
    | none => none

theorem vacuumSearchFrom_contains (cs : List Char) (q : List Char)
    (h : vacuumSearchFrom cs = some q) :
    listContainsSub "vacuum ".data (cs.map Char.toLower) = true := by
  induction cs with
  | nil => simp [vacuumSearchFrom] at h
  | cons c cs ih =>
    rw [vacuumSearchFrom] at h
    split_ifs at h with hpre
    · simp only [List.map_cons, listContainsSub, Bool.or_eq_true]
      left
      simpa using hpre
    · simp only [List.map_cons, listContainsSub, Bool.or_eq_true]
      right
      exact ih h

/-- **C3** (corrected). `_anonymize_query` keeps the query unchanged when it
contains `"autovacuum: "` (note the trailing space); else, when the regex
`vacuum .*[^;]` (case-insensitive, multiline) matches, it replaces the query
with the matched portion stripped and lower-cased; in every other case it
leaves the query text unchanged — it never drops it. -/
theorem C3_anonymize_query (raw : String) :
    (strContains raw "autovacuum: " = true → anonymize_query raw = raw) ∧
    (strContains raw "autovacuum: " = false → ∀ q, vacuumSearch raw = some q →
      anonymize_query raw = pyLower (pyStrip q)) ∧
    (strContains raw "autovacuum: " = false → vacuumSearch raw = none →
      anonymize_query raw = raw) ∧
    (anonymize_query raw = raw ∨
      ∃ q, vacuumSearch raw = some q ∧ anonymize_query raw = pyLower (pyStrip q)) := by
  have b1 : strContains raw "autovacuum: " = true → anonymize_query raw = raw := by
    intro hauto
    unfold anonymize_query
    rw [if_pos hauto]
  have b2 : strContains raw "autovacuum: " = false → ∀ q, vacuumSearch raw = some q →
      anonymize_query raw = pyLower (pyStrip q) := by
    intro hauto q hq
    obtain ⟨ql, hql, hqmk⟩ := Option.map_eq_some'.mp hq
    have hguard : strContains (pyLower raw) "vacuum " = true := by
      show listContainsSub "vacuum ".data (pyLower raw).data = true
      show listContainsSub "vacuum ".data (raw.data.map Char.toLower) = true
      exact vacuumSearchFrom_contains raw.data ql hql
    unfold anonymize_query
    rw [if_neg (by simp [hauto]), if_pos hguard]
    simp [hq]
  have b3 : strContains raw "autovacuum: " = false → vacuumSearch raw = none →
      anonymize_query raw = raw := by
    intro hauto hnone
    unfold anonymize_query
    rw [if_neg (by simp [hauto])]
    by_cases hg : strContains (pyLower raw) "vacuum " = true
    · rw [if_pos hg]
      simp [hnone]
    · rw [if_neg hg]
  refine ⟨b1, b2, b3, ?_⟩
  by_cases hauto : strContains raw "autovacuum: " = true
  · exact Or.inl (b1 hauto)
  · cases hS : vacuumSearch raw with
    | none => exact Or.inl (b3 (by simpa using hauto) hS)
    | some q => exact Or.inr ⟨q, rfl, b2 (by simpa using hauto) q hS⟩

theorem C3_anonymize_query_witness :
    anonymize_query "-- comment\n VACUUM TPCC.OORDER\t;" = "vacuum tpcc.oorder" :=
  ((C3_anonymize_query "-- comment\n VACUUM TPCC.OORDER\t;").2.1 (by decide)
    "VACUUM TPCC.OORDER\t" (by decide)).trans (by decide)

/-- **C3 counterexample**: the query `"vacuum ;"` belongs to the
vacuum-activity view (it contains `"vacuum "` case-insensitively), the regex
does not match it, and `_anonymize_query` keeps the text unchanged, while the
claim says the statement text is dropped. -/
theorem C3_counterexample :
    strContains (pyLower "vacuum ;") "vacuum " = true ∧
    claimC3Transform "vacuum ;" = none ∧
    anonymize_query "vacuum ;" = "vacuum ;" :=
  ⟨by decide, by decide, by decide⟩

/-! ## MySQL collector: version gating
(`driver/collector/mysql_collector.py`, `__init__` and `collect_metrics`) -/

/-- Parse a non-empty all-digit string. -/
def parseDigits : List Char → Option Nat
  | [] => none
  | cs =>
    if cs.all Char.isDigit then
      some (cs.foldl (fun acc c => acc * 10 + (c.toNat - '0'.toNat)) 0)
    else none

/-- Python `s.split(sep)` for a one-character separator. -/
def pySplitChar (sep : Char) : List Char → List Char → List (List Char)
  | [], acc => [acc.reverse]
  | c :: cs, acc =>
    if c = sep then acc.reverse :: pySplitChar sep cs []
    else pySplitChar sep cs (c :: acc)

/-- Python `s.split(".")`. -/
def pySplitDot (s : String) : List String :=
  (pySplitChar '.' s.data []).map String.mk

/-- Python `".".join(parts)`. -/
def pyJoinDot : List String → String
  | [] => ""
  | [x] => x
  | x :: xs => x ++ "." ++ pyJoinDot xs

/-- Python `float(s)` restricted to the plain decimal forms a version string
produces (`"8"`, `"8.0"`, `"8."`, `".5"`); anything else raises (`none`). -/
def parsePyFloat (s : String) : Option ℚ :=
  match pySplitDot s with
  | [i] => (parseDigits i.data).map (fun n => mkRat n 1)
  | [i, f] =>
    if i.data.isEmpty && f.data.isEmpty then none
    else
      match (if i.data.isEmpty then some 0 else parseDigits i.data),
            (if f.data.isEmpty then some 0 else parseDigits f.data) with
      | some ip, some fp => some (mkRat (ip * 10 ^ f.data.length + fp) (10 ^ f.data.length))
      | _, _ => none
  | _ => none

/-- `float(".".join(version.split(".")[:2]))`. -/
def parseMajorMinor (version : String) : Option ℚ :=
  parsePyFloat (pyJoinDot ((pySplitDot version).take 2))

/-- The state `MysqlCollector.__init__` establishes: the parsed `_version`
float and the replica statement chosen by the `self._version > 8.0` gate. -/
structure MysqlCollector where
  version_str : String
  version : ℚ
  ENGINE_REPLICA_SQL : String
deriving DecidableEq

/-- `MysqlCollector(conn, version)`; `none` when `float(...)` raises. -/
def MysqlCollector.make (version : String) : Option MysqlCollector :=
  (parseMajorMinor version).map (fun v =>
    { version_str := version
      version := v
      ENGINE_REPLICA_SQL :=
        if v > 8 then "SHOW REPLICA STATUS;" else "SHOW SLAVE STATUS;" })

/-- A SQL query result: `cursor.fetchall()` rows (string-rendered cells) and
`cursor.description` column names. -/
structure QueryResult where
  rows : List (List String)
  cols : List String

/-- A database oracle: what each SQL statement returns. -/
def MysqlDb := String → QueryResult

def METRICS_SQL : String := "SHOW GLOBAL STATUS;"

def METRICS_INNODB_SQL : String :=
  "SELECT name, count FROM information_schema.innodb_metrics " ++
  "WHERE subsystem = 'transaction';"

def ENGINE_INNODB_SQL : String := "SHOW ENGINE INNODB STATUS;"

def ENGINE_MASTER_SQL : String := "SHOW MASTER STATUS;"

def METRICS_LATENCY_HIST_SQL : String :=
  "SELECT bucket_number, bucket_timer_low / 1000000000 as bucket_timer_low, " ++
  "bucket_timer_high / 1000000000 as bucket_timer_high, count_bucket, " ++
  "count_bucket_and_lower, bucket_quantile FROM " ++
  "performance_schema.events_statements_histogram_global;"

def QUERY_DIGEST_TIME : String :=
  "SELECT CONCAT(IFNULL(schema_name, 'NULL'), '_', digest) as queryid, " ++
  "count_star as calls, " ++
  "round(avg_timer_wait/1000000000, 6) as avg_time_ms " ++
  "FROM performance_schema.events_statements_summary_by_digest;"

/-- Simplified `json.dumps` of a string-valued object (values kept as their
string rendering; key structure is what the claims concern). -/
def jsonDumpsObj (kvs : List (String × String)) : String :=
  "\x7b" ++ String.intercalate ", "
    (kvs.map (fun kv => "\"" ++ kv.1 ++ "\": \"" ++ kv.2 ++ "\"")) ++ "\x7d"

def jsonDumpsList (objs : List (List (String × String))) : String :=
  "[" ++ String.intercalate ", " (objs.map jsonDumpsObj) ++ "]"

/-- `MysqlCollector._make_list`: one `column -> value` object per row
(`zip` truncates like Python's). -/
def make_list (rows : List (List String)) (meta : List String) :
    List (List (String × String)) :=
  rows.map (fun row => meta.zip row)

/-- Python `int(s)` on a decimal string (optional sign, surrounding blanks). -/
def pyInt (s : String) : Option Int :=
  let t := ((s.data.dropWhile isPyWhitespace).reverse.dropWhile isPyWhitespace).reverse
  match t with
  | '-' :: ds => (parseDigits ds).map (fun n => -(n : Int))
  | '+' :: ds => (parseDigits ds).map (fun n => (n : Int))
  | ds => (parseDigits ds).map (fun n => (n : Int))

/-- `dict.get(key, ...)` on an association list. -/
def dictGet (kvs : List (String × String)) (key : String) : Option String :=
  (kvs.find? (fun kv => kv.1 = key)).map Prod.snd

/-- `int(self._global_status.get(key, 0))`. -/
def statusInt (status : List (String × String)) (key : String) : Option Int :=
  match dictGet status key with
  | none => some 0
  | some s => pyInt s

/-- Python `round(x, 4)` idealised on rationals (ties to even). -/
def pyRound4 (x : ℚ) : ℚ :=
  let y := x * 10000
  let f := Rat.floor y
  let d := y - f
  (if d < 1/2 then (f : ℚ) else if d > 1/2 then (f : ℚ) + 1
   else if f % 2 = 0 then (f : ℚ) else (f : ℚ) + 1) / 10000

/-- `MysqlCollector._collect_derived_metrics` from `_global_status`. -/
def collect_derived_metrics (status : List (String × String)) :
    Option (List (String × ℚ)) := do
  let reads ← statusInt status "innodb_buffer_pool_reads"
  let requests ← statusInt status "innodb_buffer_pool_read_requests"
  let buffer_miss_ratio : ℚ :=
    if requests = 0 then 0
    else pyRound4 ((reads : ℚ) / (requests : ℚ)) * 100
  let read_counts0 ← statusInt status "com_select"
  let com_insert ← statusInt status "com_insert"
  let com_update ← statusInt status "com_update"
  let com_delete ← statusInt status "com_delete"
  let com_replace ← statusInt status "com_replace"
  let write_counts0 := com_insert + com_update + com_delete + com_replace
  let read_counts := if read_counts0 = 0 then 1 else read_counts0
  let write_counts := if write_counts0 = 0 then 1 else write_counts0
  let read_write_ratio := pyRound4 ((read_counts : ℚ) / (write_counts : ℚ))
  pure [("buffer_miss_ratio", buffer_miss_ratio),
        ("read_write_ratio", read_write_ratio)]

structure MysqlEngineMetrics where
  innodb_status : String
  replica_status : String
  master_status : String
deriving DecidableEq

/-- The `metrics["global"]` tree built by `collect_metrics`
(`metrics["local"]` is `None` in the source). -/
structure MysqlMetrics where
  global_status : List (String × String)
  innodb_metrics : List (String × String)
  performance_schema : List (String × String)
  engine : MysqlEngineMetrics
  derived : List (String × ℚ)
deriving DecidableEq

/-- The dict comprehension `x[0].lower(): x[1]` over one fetched row
(`none` models an `IndexError` on a short row). -/
def rowToStatusPair (row : List String) : Option (String × String) := do
  let k ← row.get? 0
  let v ← row.get? 1
  pure (pyLower k, v)

/-- `dict(rows)` pair extraction for two-column results. -/
def rowToPair (row : List String) : Option (String × String) := do
  let k ← row.get? 0
  let v ← row.get? 1
  pure (k, v)

/-- The `if len(status_raw) > 0` handling of `SHOW ENGINE INNODB STATUS`
(`self._innodb_status` is initialised to `""`; `status_raw[0][-1]` may raise). -/
def innodbStatusOf (status_raw : List (List String)) : Option String :=
  match status_raw with
  | [] => some ""
  | row0 :: _ => (row0.getLast?).map truncate_innodb_status

/-- `MysqlCollector.collect_metrics` over a database oracle. -/
def MysqlCollector.collect_metrics (c : MysqlCollector) (db : MysqlDb) :
    Option MysqlMetrics := do
  let global_status ← (db METRICS_SQL).rows.mapM rowToStatusPair
  let innodb ← (db METRICS_INNODB_SQL).rows.mapM rowToPair
  let innodb_status ← innodbStatusOf (db ENGINE_INNODB_SQL).rows
  let derived ← collect_derived_metrics global_status
  let replica := db c.ENGINE_REPLICA_SQL
  let replica_status :=
    match replica.rows with
    | [] => ""
    | row0 :: _ => jsonDumpsObj (replica.cols.zip row0)
  let master := db ENGINE_MASTER_SQL
  let master_status :=
    match master.rows with
    | [] => ""
    | row0 :: _ => jsonDumpsObj (master.cols.zip row0)
  let digest := db QUERY_DIGEST_TIME
  let summary_by_digest := jsonDumpsList (make_list digest.rows digest.cols)
  let performance_schema :=
    if c.version ≥ 8 then
      [("events_statements_summary_by_digest", summary_by_digest)] ++
      [("events_statements_histogram_global",
        jsonDumpsList (make_list (db METRICS_LATENCY_HIST_SQL).rows
          (db METRICS_LATENCY_HIST_SQL).cols))]
    else [("events_statements_summary_by_digest", summary_by_digest)]
  pure { global_status := global_status, innodb_metrics := innodb,
         performance_schema := performance_schema,
         engine := { innodb_status := innodb_status,
                     replica_status := replica_status,
                     master_status := master_status },
         derived := derived }

/-- **C1** (corrected). For a MySQL collector constructed with version string
`v` (with `m` the float parse of the first two dot-separated components of
`v`): the replica-status read is `SHOW REPLICA STATUS` iff `m > 8.0`
(strictly — at `m = 8.0` the source issues `SHOW SLAVE STATUS`), and
`collect_metrics` includes `events_statements_histogram_global` under
`global.performance_schema` iff `m ≥ 8.0`. -/
theorem C1_version_gates (v : String) (c : MysqlCollector)
    (hc : MysqlCollector.make v = some c) (db : MysqlDb) (m : MysqlMetrics)
    (hm : c.collect_metrics db = some m) :
    (c.ENGINE_REPLICA_SQL = "SHOW REPLICA STATUS;" ↔ 8 < c.version) ∧
    (c.ENGINE_REPLICA_SQL ≠ "SHOW REPLICA STATUS;" →
      c.ENGINE_REPLICA_SQL = "SHOW SLAVE STATUS;") ∧
    (parseMajorMinor v = some c.version) ∧
    ((m.performance_schema.map Prod.fst).contains "events_statements_histogram_global"
      = true ↔ 8 ≤ c.version) := by
  obtain ⟨ver, hver, hcmk⟩ := Option.map_eq_some'.mp hc
  have hcver : c.version = ver := by rw [← hcmk]
  have hcrep : c.ENGINE_REPLICA_SQL =
      (if ver > 8 then "SHOW REPLICA STATUS;" else "SHOW SLAVE STATUS;") := by
    rw [← hcmk]
  refine ⟨?_, ?_, ?_, ?_⟩
  · rw [hcrep, hcver]
    split_ifs with h8
    · simp [h8]
    · simp only [gt_iff_lt] at h8
      constructor
      · intro hcontra
        exact absurd hcontra (by decide)
      · intro hlt
        exact absurd hlt h8
  · rw [hcrep]
    split_ifs with h8
    · intro hne
      exact absurd rfl hne
    · intro _
      rfl
  · rw [hcver, hver]
  · have hperf : m.performance_schema =
        (if c.version ≥ 8 then
          [("events_statements_summary_by_digest",
            jsonDumpsList (make_list (db QUERY_DIGEST_TIME).rows (db QUERY_DIGEST_TIME).cols))] ++
          [("events_statements_histogram_global",
            jsonDumpsList (make_list (db METRICS_LATENCY_HIST_SQL).rows
              (db METRICS_LATENCY_HIST_SQL).cols))]
        else [("events_statements_summary_by_digest",
          jsonDumpsList (make_list (db QUERY_DIGEST_TIME).rows (db QUERY_DIGEST_TIME).cols))]) := by
      unfold MysqlCollector.collect_metrics at hm
      simp only [bind, Option.bind_eq_some] at hm
      obtain ⟨gs, hgs, hm⟩ := hm
      obtain ⟨inn, hinn, hm⟩ := hm
      obtain ⟨ist, hist, hm⟩ := hm
      obtain ⟨der, hder, hm⟩ := hm
      simp only [pure, Option.some.injEq] at hm
      rw [← hm]
    rw [hperf]
    split_ifs with h8
    · simp only [List.map_append, List.map_cons, List.map_nil]
      constructor
      · intro _
        exact h8
      · intro _
        decide
    · constructor
      · intro hcontra
        simp only [List.map_cons, List.map_nil] at hcontra
        exact absurd hcontra (by decide)
      · intro hle
        exact absurd hle h8

/-- Oracle returning empty results for every query. -/
def emptyMysqlDb : MysqlDb := fun _ => { rows := [], cols := [] }

/-- **C1 counterexample**: version `"8.0.22"` parses to `m = 8.0`, so the claim
requires `SHOW REPLICA STATUS`; the constructed collector issues
`SHOW SLAVE STATUS` while `collect_metrics` does include the histogram key. -/
theorem C1_counterexample :
    (MysqlCollector.make "8.0.22").map MysqlCollector.version = some 8 ∧
    (MysqlCollector.make "8.0.22").map MysqlCollector.ENGINE_REPLICA_SQL =
      some "SHOW SLAVE STATUS;" ∧
    ((MysqlCollector.make "8.0.22").bind
        (fun c => MysqlCollector.collect_metrics c emptyMysqlDb)).map
      (fun m => (m.performance_schema.map Prod.fst).contains
        "events_statements_histogram_global") = some true :=
  ⟨by decide, by decide, by decide⟩

def mysqlDemoCollector : MysqlCollector :=
  { version_str := "5.7.34", version := mkRat 57 10,
    ENGINE_REPLICA_SQL := "SHOW SLAVE STATUS;" }

def mysqlDemoMetrics : MysqlMetrics :=
  { global_status := [], innodb_metrics := [],
    performance_schema := [("events_statements_summary_by_digest", "[]")],
    engine := { innodb_status := "", replica_status := "", master_status := "" },
    derived := [("buffer_miss_ratio", 0),
                ("read_write_ratio", pyRound4 (((1 : Int) : ℚ) / ((1 : Int) : ℚ)))] }

theorem C1_version_gates_witness :
    (mysqlDemoMetrics.performance_schema.map Prod.fst).contains
      "events_statements_histogram_global" = false := by
  have h := (C1_version_gates "5.7.34" mysqlDemoCollector (by decide) emptyMysqlDb
    mysqlDemoMetrics (by rfl)).2.2.2
  rw [Bool.eq_false_iff]
  intro htrue
  have h2 := h.mp htrue
  rw [show mysqlDemoCollector.version = mkRat 57 10 from rfl] at h2
  revert h2
  decide

/-! ## PostgreSQL collector: multi-logical-database table-level fan-out.

The multi-database `PostgresCollector` is not present under `src/`: the file
there holds a single-connection version (constructor `(conn, version)`), while
`collector_factory.get_collector` builds `PostgresCollector(conns, main_db,
version)` from the `{logical_db_name → connection}` mapping and the
repository's tests expect each table-level sub-payload to end in a
`logical_database_name` column.  Modelled from the spec: the fan-out below
follows §4.4 — "When multiple logical databases are present, each sub-payload
gains a `logical_database_name` column; rows from all logical databases are
concatenated in a stable order." -/

/-- A tabular sub-payload `{columns, rows}` (cells rendered as strings). -/
structure TablePayload where
  columns : List String
  rows : List (List String)
deriving DecidableEq

/-- Modelled from the spec: fan one sub-payload out over the logical
databases, in the stable order of the collector's connection mapping; each
row gains its database's name as a new last column `logical_database_name`. -/
def fanOutSubPayload (columns : List String)
    (perDb : List (String × List (List String))) : TablePayload :=
  { columns := columns ++ ["logical_database_name"]
    rows := (perDb.map (fun p => p.2.map (fun row => row ++ [p.1]))).flatten }

/-- Modelled from the spec: `collect_table_level_metrics` over K logical
databases.  `results` lists, per sub-payload name, the shared column list and
each logical database's rows for that sub-payload. -/
def collect_table_level_metrics_multi
    (results : List (String × List String × List (String × List (List String)))) :
    List (String × TablePayload) :=
  results.map (fun r => (r.1, fanOutSubPayload r.2.1 r.2.2))

theorem fanOut_filter_not_mem (perDb : List (String × List (List String)))
    (d : String) (hd : d ∉ perDb.map Prod.fst) :
    ((perDb.map (fun p => p.2.map (fun row => row ++ [p.1]))).flatten).filter
      (fun row => row.getLast? == some d) = [] := by
  induction perDb with
  | nil => rfl
  | cons p rest ih =>
    simp only [List.map_cons, List.flatten_cons, List.filter_append]
    have h1 : (p.2.map (fun row => row ++ [p.1])).filter
        (fun row => row.getLast? == some d) = [] := by
      rw [List.filter_eq_nil_iff]
      intro row hrow
      simp only [List.mem_map] at hrow
      obtain ⟨row0, _, rfl⟩ := hrow
      rw [List.getLast?_concat]
      have hne : p.1 ≠ d := by
        intro hcontra
        exact hd (by simp [← hcontra])
      simp [hne]
    rw [h1, ih (fun hmem => hd (by simp [hmem]))]
    rfl

theorem fanOut_filter (columns : List String)
    (perDb : List (String × List (List String)))
    (hnodup : (perDb.map Prod.fst).Nodup)
    (d : String) (rowsd : List (List String)) (hmem : (d, rowsd) ∈ perDb) :
    (fanOutSubPayload columns perDb).rows.filter
      (fun row => row.getLast? == some d) = rowsd.map (fun row => row ++ [d]) := by
  induction perDb with
  | nil => simp at hmem
  | cons p rest ih =>
    simp only [fanOutSubPayload, List.map_cons, List.flatten_cons, List.filter_append]
    rcases List.mem_cons.mp hmem with heq | hrest
    · subst heq
      have h1 : (rowsd.map (fun row => row ++ [d])).filter
          (fun row => row.getLast? == some d) = rowsd.map (fun row => row ++ [d]) := by
        rw [List.filter_eq_self]
        intro row hrow
        simp only [List.mem_map] at hrow
        obtain ⟨row0, _, rfl⟩ := hrow
        rw [List.getLast?_concat]
        simp
      have hd : d ∉ rest.map Prod.fst := by
        simp only [List.map_cons, List.nodup_cons] at hnodup
        exact hnodup.1
      rw [h1, fanOut_filter_not_mem rest d hd, List.append_nil]
    · have hne : p.1 ≠ d := by
        intro hcontra
        simp only [List.map_cons, List.nodup_cons] at hnodup
        apply hnodup.1
        rw [hcontra]
        exact List.mem_map_of_mem Prod.fst hrest
      have h1 : (p.2.map (fun row => row ++ [p.1])).filter
          (fun row => row.getLast? == some d) = [] := by
        rw [List.filter_eq_nil_iff]
        intro row hrow
        simp only [List.mem_map] at hrow
        obtain ⟨row0, _, rfl⟩ := hrow
        rw [List.getLast?_concat]
        simp [hne]
      rw [h1]
      have := ih (by simp only [List.map_cons, List.nodup_cons] at hnodup; exact hnodup.2)
        hrest
      simp only [fanOutSubPayload] at this
      rw [List.nil_append, this]

/-- **C2** (confirmed; the multi-db collector is modelled from the spec, see
the section comment).  For every PostgreSQL table-level payload built from
K > 1 logical databases with distinct names, every sub-payload has a column
list ending in `logical_database_name`, its rows are the per-database rows
(each tagged with its database name) concatenated in the stable database
order, every row's last cell is one of the database names, and the rows
partition disjointly by that column: filtering on a database name recovers
exactly that database's rows. -/
theorem C2_table_level_fanout
    (results : List (String × List String × List (String × List (List String))))
    (hK : ∀ r ∈ results, 1 < r.2.2.length)
    (hnodup : ∀ r ∈ results, (r.2.2.map Prod.fst).Nodup) :
    ∀ r ∈ results,
      (r.1, fanOutSubPayload r.2.1 r.2.2) ∈ collect_table_level_metrics_multi results ∧
      (fanOutSubPayload r.2.1 r.2.2).columns.getLast? = some "logical_database_name" ∧
      (fanOutSubPayload r.2.1 r.2.2).rows =
        (r.2.2.map (fun p => p.2.map (fun row => row ++ [p.1]))).flatten ∧
      (∀ row ∈ (fanOutSubPayload r.2.1 r.2.2).rows,
        ∃ db ∈ r.2.2.map Prod.fst, row.getLast? = some db) ∧
      (∀ d rowsd, (d, rowsd) ∈ r.2.2 →
        (fanOutSubPayload r.2.1 r.2.2).rows.filter
          (fun row => row.getLast? == some d) = rowsd.map (fun row => row ++ [d])) := by
  intro r hr
  refine ⟨?_, ?_, rfl, ?_, ?_⟩
  · exact List.mem_map_of_mem _ hr
  · simp [fanOutSubPayload]
  · intro row hrow
    simp only [fanOutSubPayload, List.mem_flatten, List.mem_map] at hrow
    obtain ⟨block, ⟨p, hp, rfl⟩, hrowblock⟩ := hrow
    simp only [List.mem_map] at hrowblock
    obtain ⟨row0, _, rfl⟩ := hrowblock
    refine ⟨p.1, List.mem_map_of_mem Prod.fst hp, ?_⟩
    rw [List.getLast?_concat]
  · intro d rowsd hmem
    exact fanOut_filter r.2.1 r.2.2 (hnodup r hr) d rowsd hmem

/-- Concrete two-database fan-out for `pg_stat_user_tables_all_fields`. -/
def tableLevelDemo : List (String × List String × List (String × List (List String))) :=
  [("pg_stat_user_tables_all_fields",
    (["relid", "relname"], [("a", [["16384", "t1"]]), ("b", [["16385", "t2"]])]))]

theorem C2_table_level_fanout_witness :
    (fanOutSubPayload ["relid", "relname"]
        [("a", [["16384", "t1"]]), ("b", [["16385", "t2"]])]).columns.getLast?
      = some "logical_database_name" := by
  have h := C2_table_level_fanout tableLevelDemo (by decide) (by decide)
    ("pg_stat_user_tables_all_fields",
      (["relid", "relname"], [("a", [["16384", "t1"]]), ("b", [["16385", "t2"]])]))
    (by decide)
  exact h.2.1
